import Mathlib

/-!
Shallow embedding of the cortex memory-and-policy engine core.

Sources embedded (TypeScript):
- src/src/memory/failure/failure.service.ts (FailureMemoryService.checkBlocking)
  and the failure types file (FailurePattern, BlockCheckResult, DEFAULT_FAILURE_CONFIG).
- src/src/memory/distilled/memory.service.ts (applyDecay, cleanup, reinforce,
  merge, retrieve) and src/src/memory/distilled/types.ts (DistilledMemory,
  DecayConfig, DEFAULT_DECAY_CONFIG).
- src/src/index.ts (IdentityService.create / update, version snapshots) and
  src/src/identity/schema.ts (validators).
- the engine service file (CortexEngine.prepareContext, buildFailureContext,
  buildIdentityContext, buildMemoryContext) and the engine types file
  (DEFAULT_ENGINE_CONFIG, the three result shapes).

Modelling conventions:
- JavaScript numbers carrying scores, confidences and thresholds are modelled
  as rationals; configuration constants are written with mkRat.
- ISO timestamp strings are modelled as integer milliseconds.  The code only
  creates them with new Date().toISOString(), compares them lexicographically
  (merge) or parses them back with getTime() (applyDecay); for timestamps of a
  fixed ISO format the lexicographic order agrees with the numeric order, so
  an Int timestamp is order-faithful.  Each service call takes its clock
  reading explicitly (the code reads Date.now() once per call).
- The injected SimilarityProvider is an external collaborator; it is modelled
  as an arbitrary pair of pure functions.
- Promises are modelled away: all embedded operations are pure functions from
  an explicit store value to a result and a new store value; fallible
  operations return Except String.
- A JavaScript Map keyed by id is modelled either as a function
  String -> Option for stores whose listing order is irrelevant to the claims
  (identities), or as an id-unique list for stores that are iterated
  (memories, failure patterns); save replaces in place or appends, matching
  Map.prototype.set insertion-order semantics.
-/

namespace Cortex

/-- JS s.trim().length === 0: a string is blank iff it contains only
whitespace, which is exactly when trimming leading and trailing whitespace
leaves the empty string. -/
def blank (s : String) : Bool := s.data.all (fun c => c.isWhitespace)

/-- Match result of SimilarityProvider.findSimilar (interfaces/similarity.ts). -/
structure SimilarityMatch where
  index : Nat
  score : ℚ
  text : String
deriving DecidableEq

/-- The injected similarity capability (interfaces/similarity.ts).  The core
only consumes this contract, so it is an arbitrary pair of functions here. -/
structure SimilarityProvider where
  computeSimilarity : String → String → ℚ
  findSimilar : String → List String → ℚ → List SimilarityMatch

/-! ## Failure memory (failure.service.ts and its types file) -/

/-- Severity level of a failure pattern. -/
inductive FailureSeverity where
  | hard
  | soft
deriving DecidableEq

/-- A recorded failure pattern. -/
structure FailurePattern where
  id : String
  pattern : String
  context : String
  severity : FailureSeverity
  occurrenceCount : Nat
  createdAt : Int
  lastOccurredAt : Int
  reason : String
  tags : List String
  active : Bool
deriving DecidableEq

/-- Result of FailureMemoryService.checkBlocking. -/
structure BlockCheckResult where
  blocked : Bool
  matchedPatterns : List FailurePattern
  severity : Option FailureSeverity
deriving DecidableEq

/-- Configuration for failure memory behaviour. -/
structure FailureMemoryConfig where
  duplicateThreshold : ℚ
  defaultSeverity : FailureSeverity
  blockingThreshold : ℚ

/-- DEFAULT_FAILURE_CONFIG from the failure types file. -/
def DEFAULT_FAILURE_CONFIG : FailureMemoryConfig :=
  { duplicateThreshold := mkRat 4 5
  , defaultSeverity := FailureSeverity.soft
  , blockingThreshold := mkRat 7 10 }

/-- Effective score of one pattern in checkBlocking: patternScore, or, when a
context string is supplied, max(patternScore, (patternScore + contextScore)/2). -/
def effectiveScore (sim : SimilarityProvider) (text : String) (ctx : Option String)
    (p : FailurePattern) : ℚ :=
  let patternScore := sim.computeSimilarity text p.pattern
  match ctx with
  | some c => max patternScore ((patternScore + sim.computeSimilarity c p.context) / 2)
  | none => patternScore

/-- Ordering used by checkBlocking on matched patterns: the JS comparator
(a, b) => b.occurrenceCount - a.occurrenceCount, i.e. occurrence count
descending. -/
def occGe (a b : FailurePattern) : Prop := b.occurrenceCount ≤ a.occurrenceCount

instance : DecidableRel occGe := fun a b => Nat.decLe b.occurrenceCount a.occurrenceCount

instance : IsTotal FailurePattern occGe := ⟨fun a b => Nat.le_total b.occurrenceCount a.occurrenceCount⟩

instance : IsTrans FailurePattern occGe := ⟨fun _ _ _ h1 h2 => Nat.le_trans h2 h1⟩

/-- FailureMemoryService.checkBlocking.  The store argument is the result of
storage.listAll(); the for-loop accumulating matchedPatterns is a filter, and
the in-place Array.prototype.sort (stable in V8) is a stable insertion sort. -/
def checkBlocking (cfg : FailureMemoryConfig) (sim : SimilarityProvider)
    (patterns : List FailurePattern) (text : String) (ctx : Option String) :
    BlockCheckResult :=
  let activePatterns := patterns.filter (fun p => p.active)
  if activePatterns.isEmpty then
    { blocked := false, matchedPatterns := [], severity := none }
  else
    let matchedPatterns := activePatterns.filter
      (fun p => decide (cfg.blockingThreshold ≤ effectiveScore sim text ctx p))
    if matchedPatterns.isEmpty then
      { blocked := false, matchedPatterns := [], severity := none }
    else
      let hasHardBlock := matchedPatterns.any (fun p => p.severity == FailureSeverity.hard)
      { blocked := hasHardBlock
      , matchedPatterns := List.insertionSort occGe matchedPatterns
      , severity := some (if hasHardBlock then FailureSeverity.hard else FailureSeverity.soft) }

/-! ## Distilled memory (memory.service.ts and types.ts) -/

/-- Categories of distilled memory. -/
inductive MemoryType where
  | lesson
  | preference
  | warning
deriving DecidableEq

/-- A distilled memory entry. -/
structure DistilledMemory where
  id : String
  type : MemoryType
  content : String
  confidence : ℚ
  reinforcementCount : Nat
  createdAt : Int
  lastReinforcedAt : Int
  lastDecayAt : Int
  decayFactor : ℚ
  tags : List String
  sourceContext : Option String
deriving DecidableEq

/-- Configuration for memory decay behaviour. -/
structure DecayConfig where
  decayRate : ℚ
  decayIntervalMs : Int
  deletionThreshold : ℚ
  decayFactorThreshold : ℚ

/-- DEFAULT_DECAY_CONFIG from types.ts: rate 0.05, interval 24h in ms,
deletion threshold 0.2, decay-factor threshold 0.1. -/
def DEFAULT_DECAY_CONFIG : DecayConfig :=
  { decayRate := mkRat 1 20
  , decayIntervalMs := 24 * 60 * 60 * 1000
  , deletionThreshold := mkRat 1 5
  , decayFactorThreshold := mkRat 1 10 }

/-- Configuration of DistilledMemoryService (all fields resolved, as in
DEFAULT_SERVICE_CONFIG merged with overrides). -/
structure MemoryServiceConfig where
  decayConfig : DecayConfig
  duplicateThreshold : ℚ
  reinforcementBoost : ℚ
  maxConfidence : ℚ

/-- DEFAULT_SERVICE_CONFIG from memory.service.ts. -/
def DEFAULT_SERVICE_CONFIG : MemoryServiceConfig :=
  { decayConfig := DEFAULT_DECAY_CONFIG
  , duplicateThreshold := mkRat 4 5
  , reinforcementBoost := mkRat 1 10
  , maxConfidence := 1 }

/-- storage.load on the memory store (Map lookup by id). -/
def loadMem (store : List DistilledMemory) (id : String) : Option DistilledMemory :=
  store.find? (fun m => m.id == id)

/-- storage.save on the memory store: Map.prototype.set replaces the entry in
place when the key exists and appends in insertion order otherwise. -/
def saveMem (store : List DistilledMemory) (m : DistilledMemory) : List DistilledMemory :=
  if store.any (fun x => x.id == m.id) then
    store.map (fun x => if x.id == m.id then m else x)
  else
    store ++ [m]

/-- storage.delete on the memory store. -/
def deleteMem (store : List DistilledMemory) (id : String) : List DistilledMemory :=
  store.filter (fun m => !(m.id == id))

/-- Decay of a single memory inside DistilledMemoryService.applyDecay: when at
least one full decay interval elapsed since lastDecayAt, lower decayFactor by
decayRate times the number of whole elapsed intervals (floored at 0) and stamp
lastDecayAt with the current time; otherwise leave the memory untouched. -/
def decayStep (cfg : DecayConfig) (now : Int) (m : DistilledMemory) : DistilledMemory :=
  let timeSinceDecay := now - m.lastDecayAt
  if cfg.decayIntervalMs ≤ timeSinceDecay then
    let decayCycles := Int.fdiv timeSinceDecay cfg.decayIntervalMs
    { m with
      decayFactor := max 0 (m.decayFactor - cfg.decayRate * (decayCycles : ℚ))
    , lastDecayAt := now }
  else
    m

/-- DistilledMemoryService.applyDecay over the whole store; the second
component is the number of memories that had decay applied (decayedCount). -/
def applyDecay (cfg : DecayConfig) (now : Int) (store : List DistilledMemory) :
    List DistilledMemory × Nat :=
  ( store.map (decayStep cfg now)
  , (store.filter (fun m => decide (cfg.decayIntervalMs ≤ now - m.lastDecayAt))).length )

/-- Deletion condition of DistilledMemoryService.cleanup: confidence below the
deletion threshold, or decayFactor below the decay-factor threshold, or
effective strength (confidence times decayFactor) below the deletion
threshold; all three comparisons are strict. -/
def shouldDelete (cfg : DecayConfig) (m : DistilledMemory) : Bool :=
  decide (m.confidence < cfg.deletionThreshold) ||
  decide (m.decayFactor < cfg.decayFactorThreshold) ||
  decide (m.confidence * m.decayFactor < cfg.deletionThreshold)

/-- DistilledMemoryService.cleanup: first component is the list of deleted
ids, second the surviving store. -/
def cleanup (cfg : DecayConfig) (store : List DistilledMemory) :
    List String × List DistilledMemory :=
  ( (store.filter (shouldDelete cfg)).map (fun m => m.id)
  , store.filter (fun m => !(shouldDelete cfg m)) )

/-- Result of reinforcing a memory. -/
structure ReinforcementResult where
  memory : DistilledMemory
  previousConfidence : ℚ
  newConfidence : ℚ
  previousReinforcementCount : Nat
deriving DecidableEq

/-- DistilledMemoryService.reinforce. -/
def reinforce (cfg : MemoryServiceConfig) (now : Int) (store : List DistilledMemory)
    (id : String) : Except String (ReinforcementResult × List DistilledMemory) :=
  match loadMem store id with
  | none => Except.error ("Memory not found: " ++ id)
  | some memory =>
    let newConfidence := min cfg.maxConfidence (memory.confidence + cfg.reinforcementBoost)
    let updated : DistilledMemory :=
      { memory with
        confidence := newConfidence
      , decayFactor := 1
      , lastDecayAt := now
      , lastReinforcedAt := now
      , reinforcementCount := memory.reinforcementCount + 1 }
    Except.ok
      ( { memory := updated
        , previousConfidence := memory.confidence
        , newConfidence := newConfidence
        , previousReinforcementCount := memory.reinforcementCount }
      , saveMem store updated )

/-- Result of merging two memories. -/
structure MergeResult where
  merged : DistilledMemory
  removed : DistilledMemory
  similarityScore : ℚ
deriving DecidableEq

/-- DistilledMemoryService.merge.  Tags are Array.from(new Set(keep ++ remove))
followed by Array.prototype.sort, modelled as dedup followed by a sort under
the lexicographic string order (both sides are duplicate-free with the same
members, so the sorted output does not depend on which occurrence dedup
keeps). -/
def merge (cfg : MemoryServiceConfig) (sim : SimilarityProvider) (now : Int)
    (store : List DistilledMemory) (keepId removeId : String) :
    Except String (MergeResult × List DistilledMemory) :=
  match loadMem store keepId with
  | none => Except.error ("Memory not found: " ++ keepId)
  | some keep =>
    match loadMem store removeId with
    | none => Except.error ("Memory not found: " ++ removeId)
    | some remove =>
      let similarityScore := sim.computeSimilarity keep.content remove.content
      let mergedTags := (keep.tags ++ remove.tags).dedup
      let merged : DistilledMemory :=
        { keep with
          confidence := min cfg.maxConfidence
            (max keep.confidence remove.confidence + cfg.reinforcementBoost)
        , createdAt := if keep.createdAt < remove.createdAt then keep.createdAt else remove.createdAt
        , lastReinforcedAt := now
        , reinforcementCount := keep.reinforcementCount + remove.reinforcementCount + 1
        , tags := List.insertionSort (fun a b : String => a ≤ b) mergedTags }
      let store1 := saveMem store merged
      let store2 := deleteMem store1 removeId
      Except.ok
        ( { merged := merged, removed := remove, similarityScore := similarityScore }
        , store2 )

/-- Query parameters for retrieving memories. -/
structure MemoryQuery where
  type : Option MemoryType
  tags : Option (List String)
  minConfidence : Option ℚ
  limit : Option Nat
  semanticQuery : Option String
  similarityThreshold : Option ℚ

/-- Result of a memory query. -/
structure MemoryQueryResult where
  memories : List DistilledMemory
  totalCount : Nat
deriving DecidableEq

/-- DistilledMemoryService.retrieve.  The indexed lookups findByType and
findByTags of the in-memory storage are order-preserving filters of listAll.
The semantic step maps provider matches back through memories[match.index];
the provider contract guarantees in-range indices, out-of-range indices are
dropped here. -/
def retrieve (sim : SimilarityProvider) (store : List DistilledMemory)
    (query : MemoryQuery) : MemoryQueryResult :=
  let memories0 : List DistilledMemory :=
    match query.type, query.tags with
    | some t, _ => store.filter (fun m => m.type == t)
    | none, some ts =>
      if !ts.isEmpty then store.filter (fun m => ts.all (fun t => m.tags.contains t)) else store
    | none, none => store
  let memories1 : List DistilledMemory :=
    match query.type, query.tags with
    | some _, some ts =>
      if !ts.isEmpty then memories0.filter (fun m => ts.all (fun t => m.tags.contains t)) else memories0
    | _, _ => memories0
  let memories2 : List DistilledMemory :=
    match query.minConfidence with
    | some mc => memories1.filter (fun m => decide (mc ≤ m.confidence))
    | none => memories1
  let memories3 : List DistilledMemory :=
    match query.semanticQuery with
    | some sq =>
      if !memories2.isEmpty then
        let threshold := query.similarityThreshold.getD (mkRat 1 2)
        let contents := memories2.map (fun m => m.content)
        let similar := sim.findSimilar sq contents threshold
        similar.filterMap (fun mt => memories2.get? mt.index)
      else memories2
    | none => memories2
  let totalCount := memories3.length
  let memories4 : List DistilledMemory :=
    match query.limit with
    | some l => if 0 < l then memories3.take l else memories3
    | none => memories3
  { memories := memories4, totalCount := totalCount }

/-! ## Identity core (identity service and schema files) -/

/-- Risk tolerance levels. -/
inductive RiskPosture where
  | conservative
  | moderate
  | aggressive
deriving DecidableEq

/-- A core value with an assigned id. -/
structure Value where
  id : String
  name : String
  description : String
  priority : ℚ
deriving DecidableEq

/-- An invariant rule with an assigned id. -/
structure Invariant where
  id : String
  description : String
  rule : String
  rationale : String
deriving DecidableEq

/-- A style constraint with an assigned id. -/
structure StyleConstraint where
  id : String
  aspect : String
  constraint : String
deriving DecidableEq

/-- The versioned identity record. -/
structure Identity where
  id : String
  name : String
  version : Nat
  createdAt : Int
  updatedAt : Int
  values : List Value
  invariants : List Invariant
  styleConstraints : List StyleConstraint
  riskPosture : RiskPosture
  description : Option String
deriving DecidableEq

/-- Immutable snapshot of an identity at one version. -/
structure IdentityVersion where
  identityId : String
  version : Nat
  snapshot : Identity
  createdAt : Int
  changeReason : String
deriving DecidableEq

/-- Value input before id assignment (Omit Value id). -/
structure ValueInput where
  name : String
  description : String
  priority : ℚ
deriving DecidableEq

/-- Invariant input before id assignment. -/
structure InvariantInput where
  description : String
  rule : String
  rationale : String
deriving DecidableEq

/-- Style-constraint input before id assignment. -/
structure StyleInput where
  aspect : String
  constraint : String
deriving DecidableEq

/-- Input of IdentityService.create. -/
structure CreateIdentityInput where
  name : String
  values : List ValueInput
  invariants : List InvariantInput
  styleConstraints : List StyleInput
  riskPosture : RiskPosture
  description : Option String
deriving DecidableEq

/-- Input of IdentityService.update; omitted fields are carried over. -/
structure UpdateIdentityInput where
  changeReason : String
  values : Option (List ValueInput)
  invariants : Option (List InvariantInput)
  styleConstraints : Option (List StyleInput)
  riskPosture : Option RiskPosture
  description : Option String
deriving DecidableEq

/-- validateValue from schema.ts.  The typeof checks of the source are
vacuously true in the typed embedding; the live checks are blankness of
name and description and non-negativity of priority. -/
def validateValue (v : ValueInput) (i : Nat) : List String :=
  let prefix_ := "values[" ++ toString i ++ "]"
  (if blank v.name then [prefix_ ++ ".name must be a non-empty string"] else []) ++
  (if blank v.description then [prefix_ ++ ".description must be a non-empty string"] else []) ++
  (if v.priority < 0 then [prefix_ ++ ".priority must be a non-negative number"] else [])

/-- validateInvariant from schema.ts. -/
def validateInvariant (inv : InvariantInput) (i : Nat) : List String :=
  let prefix_ := "invariants[" ++ toString i ++ "]"
  (if blank inv.description then [prefix_ ++ ".description must be a non-empty string"] else []) ++
  (if blank inv.rule then [prefix_ ++ ".rule must be a non-empty string"] else []) ++
  (if blank inv.rationale then [prefix_ ++ ".rationale must be a non-empty string"] else [])

/-- validateStyleConstraint from schema.ts. -/
def validateStyleConstraint (sc : StyleInput) (i : Nat) : List String :=
  let prefix_ := "styleConstraints[" ++ toString i ++ "]"
  (if blank sc.aspect then [prefix_ ++ ".aspect must be a non-empty string"] else []) ++
  (if blank sc.constraint then [prefix_ ++ ".constraint must be a non-empty string"] else [])

/-- Flattened per-element validation over an input list. -/
def validateEach {α : Type} (f : α → Nat → List String) (l : List α) : List String :=
  (l.enum.map (fun p => f p.2 p.1)).flatten

/-- validateCreateInput from schema.ts.  Risk-posture membership in the fixed
enum and the Array.isArray checks are vacuous in the typed embedding. -/
def validateCreateInput (input : CreateIdentityInput) : List String :=
  (if blank input.name then ["name must be a non-empty string"] else []) ++
  validateEach validateValue input.values ++
  validateEach validateInvariant input.invariants ++
  validateEach validateStyleConstraint input.styleConstraints

/-- validateUpdateInput from schema.ts. -/
def validateUpdateInput (input : UpdateIdentityInput) : List String :=
  (if blank input.changeReason then ["changeReason must be a non-empty string"] else []) ++
  (match input.values with
   | some vs => validateEach validateValue vs
   | none => []) ++
  (match input.invariants with
   | some invs => validateEach validateInvariant invs
   | none => []) ++
  (match input.styleConstraints with
   | some scs => validateEach validateStyleConstraint scs
   | none => [])

/-- validateIdentity from schema.ts, on a full record: id, name, version ≥ 1,
and nested elements including their assigned ids. -/
def validateIdentity (identity : Identity) : List String :=
  (if blank identity.id then ["id must be a non-empty string"] else []) ++
  (if blank identity.name then ["name must be a non-empty string"] else []) ++
  (if identity.version < 1 then ["version must be a positive integer"] else []) ++
  (identity.values.enum.map (fun p =>
    (if blank p.2.id then ["values[" ++ toString p.1 ++ "].id must be a non-empty string"] else []) ++
    validateValue ⟨p.2.name, p.2.description, p.2.priority⟩ p.1)).flatten ++
  (identity.invariants.enum.map (fun p =>
    (if blank p.2.id then ["invariants[" ++ toString p.1 ++ "].id must be a non-empty string"] else []) ++
    validateInvariant ⟨p.2.description, p.2.rule, p.2.rationale⟩ p.1)).flatten ++
  (identity.styleConstraints.enum.map (fun p =>
    (if blank p.2.id then ["styleConstraints[" ++ toString p.1 ++ "].id must be a non-empty string"] else []) ++
    validateStyleConstraint ⟨p.2.aspect, p.2.constraint⟩ p.1)).flatten

/-- State of the identity storage: a map of live identities plus the
append-only version table (getVersions filters it by identity id, matching
the per-id lists of InMemoryIdentityStorage). -/
structure IdentityStore where
  identities : String → Option Identity
  versions : List IdentityVersion

/-- IdentityService.getVersionHistory via storage.getVersions. -/
def getVersionHistory (st : IdentityStore) (id : String) : List IdentityVersion :=
  st.versions.filter (fun v => v.identityId == id)

/-- IdentityService.create.  uuidv4 calls are modelled by an injected supply
uuid : Nat → String consumed in call order: the identity id first, then one
id per invariant, style constraint and value. -/
def create (uuid : Nat → String) (now : Int) (st : IdentityStore)
    (input : CreateIdentityInput) : Except String (Identity × IdentityStore) :=
  let errors := validateCreateInput input
  if !errors.isEmpty then
    Except.error ("Invalid identity input: " ++ String.intercalate "; " errors)
  else
    let id := uuid 0
    let nInv := input.invariants.length
    let nSty := input.styleConstraints.length
    let identity : Identity :=
      { id := id
      , name := input.name
      , version := 1
      , createdAt := now
      , updatedAt := now
      , values := input.values.enum.map (fun p =>
          { id := uuid (1 + nInv + nSty + p.1)
          , name := p.2.name, description := p.2.description, priority := p.2.priority })
      , invariants := input.invariants.enum.map (fun p =>
          { id := uuid (1 + p.1)
          , description := p.2.description, rule := p.2.rule, rationale := p.2.rationale })
      , styleConstraints := input.styleConstraints.enum.map (fun p =>
          { id := uuid (1 + nInv + p.1)
          , aspect := p.2.aspect, constraint := p.2.constraint })
      , riskPosture := input.riskPosture
      , description := input.description }
    let errors2 := validateIdentity identity
    if !errors2.isEmpty then
      Except.error ("Identity validation failed: " ++ String.intercalate "; " errors2)
    else
      Except.ok
        ( identity
        , { identities := fun k => if k == id then some identity else st.identities k
          , versions := st.versions ++
              [{ identityId := id, version := 1, snapshot := identity
               , createdAt := now, changeReason := "initial" }] } )

/-- IdentityService.update: validates the input, loads the existing record,
replaces any supplied field wholesale with freshly identified nested elements,
re-validates, saves the bumped record and appends one version snapshot with
the caller-supplied change reason. -/
def update (uuid : Nat → String) (now : Int) (st : IdentityStore) (id : String)
    (input : UpdateIdentityInput) : Except String (Identity × IdentityStore) :=
  let errors := validateUpdateInput input
  if !errors.isEmpty then
    Except.error ("Invalid update input: " ++ String.intercalate "; " errors)
  else
    match st.identities id with
    | none => Except.error ("Identity not found: " ++ id)
    | some existing =>
      let updated : Identity :=
        { existing with
          description := match input.description with
            | some d => some d
            | none => existing.description
        , invariants := match input.invariants with
            | some invs => invs.enum.map (fun p =>
                { id := uuid p.1
                , description := p.2.description, rule := p.2.rule, rationale := p.2.rationale })
            | none => existing.invariants
        , riskPosture := input.riskPosture.getD existing.riskPosture
        , styleConstraints := match input.styleConstraints with
            | some scs => scs.enum.map (fun p =>
                { id := uuid (1000 + p.1)
                , aspect := p.2.aspect, constraint := p.2.constraint })
            | none => existing.styleConstraints
        , updatedAt := now
        , values := match input.values with
            | some vs => vs.enum.map (fun p =>
                { id := uuid (2000 + p.1)
                , name := p.2.name, description := p.2.description, priority := p.2.priority })
            | none => existing.values
        , version := existing.version + 1 }
      let errors2 := validateIdentity updated
      if !errors2.isEmpty then
        Except.error ("Updated identity validation failed: " ++ String.intercalate "; " errors2)
      else
        Except.ok
          ( updated
          , { identities := fun k => if k == id then some updated else st.identities k
            , versions := st.versions ++
                [{ identityId := id, version := updated.version, snapshot := updated
                 , createdAt := now, changeReason := input.changeReason }] } )

/-- Sequential composition of successful updates on one identity id, used to
state the version-history length property over an update sequence. -/
def applyUpdates (uuid : Nat → String) (now : Int) (id : String) :
    List UpdateIdentityInput → IdentityStore → Except String IdentityStore
  | [], st => Except.ok st
  | input :: rest, st =>
    match update uuid now st id input with
    | Except.error e => Except.error e
    | Except.ok (_, st1) => applyUpdates uuid now id rest st1

/-! ## Orchestration engine (engine service and engine types files) -/

/-- Engine configuration. -/
structure CortexEngineConfig where
  defaultMemoryLimit : Nat
  defaultMinConfidence : ℚ
  defaultSimilarityThreshold : ℚ
  defaultBlockingThreshold : ℚ
  throwOnBlocked : Bool

/-- DEFAULT_ENGINE_CONFIG from the engine types file. -/
def DEFAULT_ENGINE_CONFIG : CortexEngineConfig :=
  { defaultMemoryLimit := 10
  , defaultMinConfidence := mkRat 3 10
  , defaultSimilarityThreshold := mkRat 1 2
  , defaultBlockingThreshold := mkRat 7 10
  , throwOnBlocked := false }

/-- Memory query overrides of PrepareContextInput. -/
structure MemoryOptions where
  limitPerType : Option Nat
  minConfidence : Option ℚ
  similarityThreshold : Option ℚ

/-- Failure check overrides of PrepareContextInput. -/
structure FailureOptions where
  skipCheck : Option Bool
  similarityThreshold : Option ℚ

/-- Input of CortexEngine.prepareContext. -/
structure PrepareContextInput where
  identityId : String
  query : String
  context : Option String
  memoryOptions : Option MemoryOptions
  failureOptions : Option FailureOptions

/-- One hard- or soft-block entry of the structured failure context. -/
structure BlockEntry where
  pattern : String
  reason : String
  occurrenceCount : Nat
deriving DecidableEq

/-- Structured failure context. -/
structure FailureContext where
  blocked : Bool
  blockReason : Option String
  hardBlocks : List BlockEntry
  softBlocks : List BlockEntry
deriving DecidableEq

/-- One content/confidence pair of the structured memory context. -/
structure MemoryEntry where
  content : String
  confidence : ℚ
deriving DecidableEq

/-- Structured memory context grouped by memory type. -/
structure MemoryContext where
  lessons : List MemoryEntry
  preferences : List MemoryEntry
  warnings : List MemoryEntry
deriving DecidableEq

/-- One value of the structured identity view. -/
structure ValueEntry where
  name : String
  description : String
  priority : ℚ
deriving DecidableEq

/-- Structured identity context. -/
structure IdentityContext where
  name : String
  values : List ValueEntry
  invariants : List (String × String)
  styleConstraints : List (String × String)
  riskPosture : RiskPosture
  description : Option String
deriving DecidableEq

/-- Complete prepared context. -/
structure CortexContext where
  identity : Identity
  identityContext : IdentityContext
  memoryContext : MemoryContext
  failureContext : FailureContext
  rawMemories : List DistilledMemory
  rawBlockingResult : BlockCheckResult
  preparedAt : Int
deriving DecidableEq

/-- The three mutually exclusive result shapes of prepareContext. -/
inductive PrepareContextResult where
  | success (context : CortexContext)
  | blocked (reason : String) (matchedPatterns : List FailurePattern)
  | error (message : String)
deriving DecidableEq

/-- Ordering used by buildIdentityContext on values: the JS comparator
(a, b) => b.priority - a.priority, i.e. priority descending. -/
def priGe (a b : Value) : Prop := b.priority ≤ a.priority

instance : DecidableRel priGe := fun a b => inferInstanceAs (Decidable (b.priority ≤ a.priority))

instance : IsTotal Value priGe := ⟨fun a b => le_total b.priority a.priority⟩

instance : IsTrans Value priGe := ⟨fun _ _ _ h1 h2 => le_trans h2 h1⟩

/-- CortexEngine.buildFailureContext. -/
def buildFailureContext (blockingResult : BlockCheckResult) : FailureContext :=
  let hardBlocks := (blockingResult.matchedPatterns.filter
      (fun p => p.severity == FailureSeverity.hard)).map
    (fun p => BlockEntry.mk p.pattern p.reason p.occurrenceCount)
  let softBlocks := (blockingResult.matchedPatterns.filter
      (fun p => p.severity == FailureSeverity.soft)).map
    (fun p => BlockEntry.mk p.pattern p.reason p.occurrenceCount)
  { blocked := blockingResult.blocked
  , blockReason :=
      if blockingResult.blocked then hardBlocks.head?.map (fun b => b.reason) else none
  , hardBlocks := hardBlocks
  , softBlocks := softBlocks }

/-- CortexEngine.buildIdentityContext; values sorted by descending priority. -/
def buildIdentityContext (identity : Identity) : IdentityContext :=
  { name := identity.name
  , values := (List.insertionSort priGe identity.values).map
      (fun v => ValueEntry.mk v.name v.description v.priority)
  , invariants := identity.invariants.map (fun inv => (inv.rule, inv.rationale))
  , styleConstraints := identity.styleConstraints.map (fun sc => (sc.aspect, sc.constraint))
  , riskPosture := identity.riskPosture
  , description := identity.description }

/-- CortexEngine.buildMemoryContext. -/
def buildMemoryContext (lessons preferences warnings : List DistilledMemory) :
    MemoryContext :=
  { lessons := lessons.map (fun m => MemoryEntry.mk m.content m.confidence)
  , preferences := preferences.map (fun m => MemoryEntry.mk m.content m.confidence)
  , warnings := warnings.map (fun m => MemoryEntry.mk m.content m.confidence) }

/-- Engine-visible state: the three stores the engine consults through its
services. -/
structure EngineState where
  identities : String → Option Identity
  memories : List DistilledMemory
  patterns : List FailurePattern

/-- CortexEngine.prepareContext.  The second component counts the memory
retrievals executed during the call: 0 on the error and blocked exits, 3 (one
per memory type) when the full pipeline runs; it makes the short-circuit
observable in the embedding. -/
def prepareContext (sim : SimilarityProvider) (fcfg : FailureMemoryConfig)
    (ecfg : CortexEngineConfig) (st : EngineState) (now : Int)
    (input : PrepareContextInput) : PrepareContextResult × Nat :=
  match st.identities input.identityId with
  | none => (PrepareContextResult.error ("Identity not found: " ++ input.identityId), 0)
  | some identity =>
    let skipFailureCheck : Bool := (input.failureOptions.bind (fun o => o.skipCheck)).getD false
    let blockingResult := checkBlocking fcfg sim st.patterns input.query input.context
    if !skipFailureCheck && blockingResult.blocked then
      let reason := match blockingResult.matchedPatterns.head? with
        | some p => p.reason
        | none => "Matched hard-block failure pattern"
      (PrepareContextResult.blocked reason blockingResult.matchedPatterns, 0)
    else
      let memoryLimit := (input.memoryOptions.bind (fun o => o.limitPerType)).getD
        ecfg.defaultMemoryLimit
      let minConfidence := (input.memoryOptions.bind (fun o => o.minConfidence)).getD
        ecfg.defaultMinConfidence
      let similarityThreshold := (input.memoryOptions.bind (fun o => o.similarityThreshold)).getD
        ecfg.defaultSimilarityThreshold
      let lessonsResult := retrieve sim st.memories
        ⟨some MemoryType.lesson, none, some minConfidence, some memoryLimit,
         some input.query, some similarityThreshold⟩
      let preferencesResult := retrieve sim st.memories
        ⟨some MemoryType.preference, none, some minConfidence, some memoryLimit,
         some input.query, some similarityThreshold⟩
      let warningsResult := retrieve sim st.memories
        ⟨some MemoryType.warning, none, some minConfidence, some memoryLimit,
         some input.query, some similarityThreshold⟩
      let context : CortexContext :=
        { identity := identity
        , identityContext := buildIdentityContext identity
        , memoryContext := buildMemoryContext lessonsResult.memories
            preferencesResult.memories warningsResult.memories
        , failureContext := buildFailureContext blockingResult
        , rawMemories := lessonsResult.memories ++ preferencesResult.memories ++
            warningsResult.memories
        , rawBlockingResult := blockingResult
        , preparedAt := now }
      (PrepareContextResult.success context, 3)

/-! ## Concrete fixtures used by counterexamples and witnesses -/

/-- A deterministic similarity provider that scores every pair 1 and ranks
nothing; an admissible instantiation of the external similarity contract. -/
def simConst : SimilarityProvider :=
  { computeSimilarity := fun _ _ => 1
  , findSimilar := fun _ _ _ => [] }

/-- An active soft failure pattern with a high occurrence count. -/
def pSoft : FailurePattern :=
  { id := "ps", pattern := "soft pat", context := "ctx"
  , severity := FailureSeverity.soft, occurrenceCount := 5
  , createdAt := 0, lastOccurredAt := 0, reason := "soft-reason"
  , tags := [], active := true }

/-- An active hard failure pattern with a low occurrence count. -/
def pHard : FailurePattern :=
  { id := "ph", pattern := "hard pat", context := "ctx"
  , severity := FailureSeverity.hard, occurrenceCount := 1
  , createdAt := 0, lastOccurredAt := 0, reason := "hard-reason"
  , tags := [], active := true }

/-- A minimal valid identity fixture. -/
def ident1 : Identity :=
  { id := "i", name := "agent", version := 1, createdAt := 0, updatedAt := 0
  , values := [], invariants := [], styleConstraints := []
  , riskPosture := RiskPosture.conservative, description := none }

/-- Engine state with one identity and the two failure patterns above. -/
def engineSt1 : EngineState :=
  { identities := fun k => if k == "i" then some ident1 else none
  , memories := []
  , patterns := [pSoft, pHard] }

/-- A request that does not skip the failure check. -/
def input1 : PrepareContextInput :=
  { identityId := "i", query := "q", context := none
  , memoryOptions := none, failureOptions := none }

/-- A request that explicitly skips the failure check. -/
def input9 : PrepareContextInput :=
  { identityId := "i", query := "q", context := none
  , memoryOptions := none
  , failureOptions := some { skipCheck := some true, similarityThreshold := none } }

/-- A memory whose confidence sits exactly at the default deletion threshold
and whose decayFactor is exactly 1. -/
def c2mem : DistilledMemory :=
  { id := "c2", type := MemoryType.lesson, content := "boundary"
  , confidence := mkRat 1 5, reinforcementCount := 0
  , createdAt := 0, lastReinforcedAt := 0, lastDecayAt := 0
  , decayFactor := 1, tags := [], sourceContext := none }

/-- A memory fixture for the reinforcement witness. -/
def c5mem : DistilledMemory :=
  { id := "c5", type := MemoryType.lesson, content := "lesson"
  , confidence := mkRat 1 2, reinforcementCount := 3
  , createdAt := 0, lastReinforcedAt := 0, lastDecayAt := 0
  , decayFactor := mkRat 9 10, tags := [], sourceContext := none }

/-- A memory fixture for the decay witness, last decayed at time 0. -/
def c6mem : DistilledMemory :=
  { id := "c6", type := MemoryType.warning, content := "stale"
  , confidence := mkRat 1 2, reinforcementCount := 0
  , createdAt := 0, lastReinforcedAt := 0, lastDecayAt := 0
  , decayFactor := 1, tags := [], sourceContext := none }

/-- A memory fixture merged with itself in the merge counterexample. -/
def m7 : DistilledMemory :=
  { id := "m7", type := MemoryType.lesson, content := "self"
  , confidence := 1, reinforcementCount := 0
  , createdAt := 0, lastReinforcedAt := 0, lastDecayAt := 0
  , decayFactor := 1, tags := [], sourceContext := none }

/-- The kept memory of the merge witnesses. -/
def k7 : DistilledMemory :=
  { id := "k7", type := MemoryType.lesson, content := "keep content"
  , confidence := mkRat 1 2, reinforcementCount := 1
  , createdAt := 10, lastReinforcedAt := 0, lastDecayAt := 4
  , decayFactor := mkRat 9 10, tags := ["a"], sourceContext := none }

/-- The removed memory of the merge witnesses. -/
def r7 : DistilledMemory :=
  { id := "r7", type := MemoryType.lesson, content := "rem content"
  , confidence := mkRat 3 10, reinforcementCount := 2
  , createdAt := 5, lastReinforcedAt := 0, lastDecayAt := 0
  , decayFactor := 1, tags := ["b"], sourceContext := none }

/-- A constant uuid supply for the identity witness. -/
def uuidW : Nat → String := fun _ => "u"

/-- The empty identity store. -/
def stEmpty : IdentityStore := { identities := fun _ => none, versions := [] }

/-- A minimal valid create input. -/
def inpW : CreateIdentityInput :=
  { name := "agent", values := [], invariants := [], styleConstraints := []
  , riskPosture := RiskPosture.conservative, description := none }

/-- A minimal valid update input. -/
def updW : UpdateIdentityInput :=
  { changeReason := "tweak", values := none, invariants := none
  , styleConstraints := none, riskPosture := none, description := none }

/-- The identity produced by creating inpW under uuidW at time 0. -/
def identW : Identity :=
  { id := "u", name := "agent", version := 1, createdAt := 0, updatedAt := 0
  , values := [], invariants := [], styleConstraints := []
  , riskPosture := RiskPosture.conservative, description := none }

/-- The store after that create. -/
def st1W : IdentityStore :=
  { identities := fun k => if k == "u" then some identW else none
  , versions := [{ identityId := "u", version := 1, snapshot := identW
                 , createdAt := 0, changeReason := "initial" }] }

/-- The identity after one update of identW. -/
def identW2 : Identity :=
  { id := "u", name := "agent", version := 2, createdAt := 0, updatedAt := 0
  , values := [], invariants := [], styleConstraints := []
  , riskPosture := RiskPosture.conservative, description := none }

/-- The store after that update. -/
def st2W : IdentityStore :=
  { identities := fun k => if k == "u" then some identW2 else st1W.identities k
  , versions := st1W.versions ++
      [{ identityId := "u", version := 2, snapshot := identW2
       , createdAt := 0, changeReason := "tweak" }] }

/-! ## Numeric helper lemmas -/

/-- The default deletion threshold as a division. -/
theorem mkRat_one_five : (mkRat 1 5 : ℚ) = 1 / 5 := by
  norm_num [Rat.mkRat_eq_div]

/-- The default decay-factor threshold as a division. -/
theorem mkRat_one_ten : (mkRat 1 10 : ℚ) = 1 / 10 := by
  norm_num [Rat.mkRat_eq_div]

/-! ## C2: cleanup at the exact confidence boundary -/

/-- C2 counterexample: the memory c2mem has confidence exactly equal to the
default deletionThreshold (0.2) and decayFactor 1.0, yet cleanup() deletes
nothing: the returned id list is empty and the memory survives in storage.
All three deletion conditions use strict comparison, and with decayFactor 1
the effective strength equals the confidence, so none triggers. -/
theorem c2_cleanup_boundary_counterexample :
    cleanup DEFAULT_DECAY_CONFIG [c2mem] = ([], [c2mem]) := by
  have h1 : ¬ (c2mem.confidence < DEFAULT_DECAY_CONFIG.deletionThreshold) := by
    simp [c2mem, DEFAULT_DECAY_CONFIG]
  have h2 : ¬ (c2mem.decayFactor < DEFAULT_DECAY_CONFIG.decayFactorThreshold) := by
    norm_num [c2mem, DEFAULT_DECAY_CONFIG, mkRat_one_ten]
  have h3 : ¬ (c2mem.confidence * c2mem.decayFactor < DEFAULT_DECAY_CONFIG.deletionThreshold) := by
    simp [c2mem, DEFAULT_DECAY_CONFIG]
  have hs : shouldDelete DEFAULT_DECAY_CONFIG c2mem = false := by
    simp [shouldDelete, h1, h2, h3]
  simp [cleanup, List.filter, hs]

/-- C2 amended: under the default decay configuration, a memory whose
confidence is exactly the deletionThreshold is deleted by cleanup() if and
only if its decayFactor is strictly below 1; in particular a memory with
decayFactor exactly 1.0 survives. -/
theorem c2_cleanup_boundary_amended (m : DistilledMemory)
    (hconf : m.confidence = DEFAULT_DECAY_CONFIG.deletionThreshold) :
    (shouldDelete DEFAULT_DECAY_CONFIG m = true ↔ m.decayFactor < 1) ∧
    cleanup DEFAULT_DECAY_CONFIG [m] =
      (if m.decayFactor < 1 then ([m.id], []) else ([], [m])) := by
  have hth : DEFAULT_DECAY_CONFIG.deletionThreshold = 1 / 5 := by
    simp [DEFAULT_DECAY_CONFIG, mkRat_one_five]
  have hfth : DEFAULT_DECAY_CONFIG.decayFactorThreshold = 1 / 10 := by
    simp [DEFAULT_DECAY_CONFIG, mkRat_one_ten]
  have key : shouldDelete DEFAULT_DECAY_CONFIG m = true ↔ m.decayFactor < 1 := by
    simp only [shouldDelete, hconf, hth, hfth, Bool.or_eq_true, decide_eq_true_eq]
    constructor
    · rintro ((h | h) | h)
      · exact absurd h (lt_irrefl _)
      · linarith
      · linarith
    · intro h
      right
      linarith
  refine ⟨key, ?_⟩
  by_cases hd : m.decayFactor < 1
  · have hs : shouldDelete DEFAULT_DECAY_CONFIG m = true := key.mpr hd
    simp [cleanup, List.filter, hs, if_pos hd]
  · have hs : shouldDelete DEFAULT_DECAY_CONFIG m = false :=
      Bool.eq_false_iff.mpr (fun hb => hd (key.mp hb))
    simp [cleanup, List.filter, hs, if_neg hd]

/-- C2 witness: the amended statement applied to the concrete boundary
memory c2mem. -/
theorem c2_cleanup_boundary_witness :
    (shouldDelete DEFAULT_DECAY_CONFIG c2mem = true ↔ c2mem.decayFactor < 1) ∧
    cleanup DEFAULT_DECAY_CONFIG [c2mem] =
      (if c2mem.decayFactor < 1 then ([c2mem.id], []) else ([], [c2mem])) :=
  c2_cleanup_boundary_amended c2mem rfl

/-! ## C5: reinforcement -/

/-- C5: for an existing memory id, reinforce sets confidence to
min(maxConfidence, previous + reinforcementBoost), so (whenever the stored
confidence does not already exceed the cap and the boost is non-negative, as
with the defaults) confidence never decreases; it increments
reinforcementCount by exactly one, resets decayFactor to 1.0, stamps
lastReinforcedAt and lastDecayAt with the current time, and returns the
previous and new confidence together with the previous reinforcement count. -/
theorem c5_reinforce_spec (cfg : MemoryServiceConfig) (now : Int)
    (store : List DistilledMemory) (id : String) (m : DistilledMemory)
    (hload : loadMem store id = some m)
    (hcap : m.confidence ≤ cfg.maxConfidence)
    (hboost : 0 ≤ cfg.reinforcementBoost) :
    ∃ res store1, reinforce cfg now store id = Except.ok (res, store1) ∧
      res.previousConfidence = m.confidence ∧
      res.newConfidence = min cfg.maxConfidence (m.confidence + cfg.reinforcementBoost) ∧
      res.memory.confidence = res.newConfidence ∧
      m.confidence ≤ res.memory.confidence ∧
      res.memory.reinforcementCount = m.reinforcementCount + 1 ∧
      res.previousReinforcementCount = m.reinforcementCount ∧
      res.memory.decayFactor = 1 ∧
      res.memory.lastReinforcedAt = now ∧
      res.memory.lastDecayAt = now := by
  unfold reinforce
  rw [hload]
  refine ⟨_, _, rfl, rfl, rfl, rfl, ?_, rfl, rfl, rfl, rfl, rfl⟩
  exact le_min hcap (le_add_of_nonneg_right hboost)

/-- C5 witness: reinforcing the concrete memory c5mem under the default
configuration at time 5. -/
theorem c5_reinforce_witness :
    ∃ res store1, reinforce DEFAULT_SERVICE_CONFIG 5 [c5mem] "c5" = Except.ok (res, store1) ∧
      res.previousConfidence = c5mem.confidence ∧
      res.newConfidence = min DEFAULT_SERVICE_CONFIG.maxConfidence
        (c5mem.confidence + DEFAULT_SERVICE_CONFIG.reinforcementBoost) ∧
      res.memory.confidence = res.newConfidence ∧
      c5mem.confidence ≤ res.memory.confidence ∧
      res.memory.reinforcementCount = c5mem.reinforcementCount + 1 ∧
      res.previousReinforcementCount = c5mem.reinforcementCount ∧
      res.memory.decayFactor = 1 ∧
      res.memory.lastReinforcedAt = 5 ∧
      res.memory.lastDecayAt = 5 :=
  c5_reinforce_spec DEFAULT_SERVICE_CONFIG 5 [c5mem] "c5" c5mem rfl (by decide) (by decide)

/-! ## C6: decay applied twice within one interval -/

/-- C6: a memory m that is due for decay at time t1 (a full interval has
elapsed since its lastDecayAt) is decayed by applyDecay at t1, which stamps
its lastDecayAt with t1; a second applyDecay call at any time t2 less than a
full interval after t1 leaves that memory entirely unchanged, so its
decayFactor is reduced at most once. -/
theorem c6_decay_idempotent (cfg : DecayConfig) (t1 t2 : Int)
    (store : List DistilledMemory) (m : DistilledMemory)
    (hmem : m ∈ store)
    (hdue : cfg.decayIntervalMs ≤ t1 - m.lastDecayAt)
    (hwithin : t2 - t1 < cfg.decayIntervalMs) :
    decayStep cfg t1 m ∈ (applyDecay cfg t1 store).1 ∧
    (decayStep cfg t1 m).lastDecayAt = t1 ∧
    decayStep cfg t2 (decayStep cfg t1 m) = decayStep cfg t1 m ∧
    decayStep cfg t2 (decayStep cfg t1 m) ∈ (applyDecay cfg t2 (applyDecay cfg t1 store).1).1 := by
  have e1 : decayStep cfg t1 m =
      { m with
        decayFactor := max 0 (m.decayFactor -
          cfg.decayRate * ((Int.fdiv (t1 - m.lastDecayAt) cfg.decayIntervalMs : ℤ) : ℚ))
      , lastDecayAt := t1 } := by
    unfold decayStep
    rw [if_pos hdue]
  have hstamp : (decayStep cfg t1 m).lastDecayAt = t1 := by rw [e1]
  have estep : ∀ x : DistilledMemory, x.lastDecayAt = t1 → decayStep cfg t2 x = x := by
    intro x hx
    unfold decayStep
    rw [hx, if_neg (not_le.mpr hwithin)]
  have e2 : decayStep cfg t2 (decayStep cfg t1 m) = decayStep cfg t1 m :=
    estep _ hstamp
  refine ⟨List.mem_map_of_mem _ hmem, hstamp, e2, ?_⟩
  exact List.mem_map_of_mem _ (List.mem_map_of_mem _ hmem)

/-- C6 witness: the concrete memory c6mem decayed at the end of the first
default interval and probed again one millisecond later. -/
theorem c6_decay_witness :
    decayStep DEFAULT_DECAY_CONFIG 86400000 c6mem ∈
      (applyDecay DEFAULT_DECAY_CONFIG 86400000 [c6mem]).1 ∧
    (decayStep DEFAULT_DECAY_CONFIG 86400000 c6mem).lastDecayAt = 86400000 ∧
    decayStep DEFAULT_DECAY_CONFIG 86400001 (decayStep DEFAULT_DECAY_CONFIG 86400000 c6mem) =
      decayStep DEFAULT_DECAY_CONFIG 86400000 c6mem ∧
    decayStep DEFAULT_DECAY_CONFIG 86400001 (decayStep DEFAULT_DECAY_CONFIG 86400000 c6mem) ∈
      (applyDecay DEFAULT_DECAY_CONFIG 86400001
        (applyDecay DEFAULT_DECAY_CONFIG 86400000 [c6mem]).1).1 :=
  c6_decay_idempotent DEFAULT_DECAY_CONFIG 86400000 86400001 [c6mem] c6mem
    (by simp) (by decide) (by decide)

/-! ## C10: merge leaves decay state and unlisted fields of the kept record -/

/-- C10: a successful merge produces a merged record whose decayFactor and
lastDecayAt are exactly those of the kept record (merge does not erase
accumulated decay, unlike reinforce), whose type, sourceContext, id and
content are also those of the kept record, and whose lastReinforcedAt is the
merge time. -/
theorem c10_merge_frame (cfg : MemoryServiceConfig) (sim : SimilarityProvider) (now : Int)
    (store : List DistilledMemory) (keepId removeId : String) (keep remove : DistilledMemory)
    (hk : loadMem store keepId = some keep)
    (hr : loadMem store removeId = some remove) :
    ∃ res store2, merge cfg sim now store keepId removeId = Except.ok (res, store2) ∧
      res.merged.decayFactor = keep.decayFactor ∧
      res.merged.lastDecayAt = keep.lastDecayAt ∧
      res.merged.type = keep.type ∧
      res.merged.sourceContext = keep.sourceContext ∧
      res.merged.id = keep.id ∧
      res.merged.content = keep.content ∧
      res.merged.lastReinforcedAt = now := by
  unfold merge
  rw [hk, hr]
  exact ⟨_, _, rfl, rfl, rfl, rfl, rfl, rfl, rfl, rfl⟩

/-! ## Shape of checkBlocking results -/

/-- checkBlocking either returns the empty not-blocked result (exactly when
no active pattern reaches the blocking threshold) or returns the sorted
matched list together with the hard-block flag and combined severity. -/
theorem checkBlocking_cases (cfg : FailureMemoryConfig) (sim : SimilarityProvider)
    (patterns : List FailurePattern) (text : String) (ctx : Option String) :
    (checkBlocking cfg sim patterns text ctx =
        { blocked := false, matchedPatterns := [], severity := none } ∧
      (patterns.filter (fun p => p.active)).filter
        (fun p => decide (cfg.blockingThreshold ≤ effectiveScore sim text ctx p)) = []) ∨
    (∃ M, M = (patterns.filter (fun p => p.active)).filter
        (fun p => decide (cfg.blockingThreshold ≤ effectiveScore sim text ctx p)) ∧
      M ≠ [] ∧
      checkBlocking cfg sim patterns text ctx =
        { blocked := M.any (fun p => p.severity == FailureSeverity.hard)
        , matchedPatterns := List.insertionSort occGe M
        , severity := some (if M.any (fun p => p.severity == FailureSeverity.hard)
            then FailureSeverity.hard else FailureSeverity.soft) }) := by
  simp only [checkBlocking]
  by_cases hA : (patterns.filter (fun p => p.active)).isEmpty = true
  · left
    rw [if_pos hA]
    have hAnil : patterns.filter (fun p => p.active) = [] := by
      simpa using hA
    rw [hAnil]
    exact ⟨rfl, rfl⟩
  · rw [if_neg hA]
    by_cases hM : ((patterns.filter (fun p => p.active)).filter
        (fun p => decide (cfg.blockingThreshold ≤ effectiveScore sim text ctx p))).isEmpty = true
    · left
      rw [if_pos hM]
      exact ⟨rfl, by simpa using hM⟩
    · right
      refine ⟨_, rfl, ?_, ?_⟩
      · intro hnil
        rw [hnil] at hM
        exact hM rfl
      · rw [if_neg hM]

/-- A blocked checkBlocking result always carries a non-empty matched list. -/
theorem checkBlocking_blocked_ne_nil (cfg : FailureMemoryConfig) (sim : SimilarityProvider)
    (patterns : List FailurePattern) (text : String) (ctx : Option String)
    (hb : (checkBlocking cfg sim patterns text ctx).blocked = true) :
    (checkBlocking cfg sim patterns text ctx).matchedPatterns ≠ [] := by
  rcases checkBlocking_cases cfg sim patterns text ctx with ⟨hres, _⟩ | ⟨M, _, hMne, hres⟩
  · rw [hres] at hb
    simp at hb
  · rw [hres]
    intro hnil
    simp only at hnil
    have hperm := List.perm_insertionSort occGe M
    rw [hnil] at hperm
    exact hMne hperm.symm.eq_nil

/-! ## C4: checkBlocking semantics -/

/-- C4: only active patterns are considered and a pattern matches exactly
when its effective score (patternScore, or the max of patternScore and the
average of pattern and context scores when a context is supplied) reaches
the blocking threshold — the matched list is a permutation of that filter;
the result is blocked iff some matched pattern is hard; the matched list is
sorted by occurrence count descending; and the result severity is none when
nothing matches, hard when a hard match exists, and soft when only soft
patterns match. -/
theorem c4_checkBlocking_spec (cfg : FailureMemoryConfig) (sim : SimilarityProvider)
    (patterns : List FailurePattern) (text : String) (ctx : Option String) :
    List.Perm (checkBlocking cfg sim patterns text ctx).matchedPatterns
      ((patterns.filter (fun p => p.active)).filter
        (fun p => decide (cfg.blockingThreshold ≤ effectiveScore sim text ctx p))) ∧
    (∀ p, p ∈ (checkBlocking cfg sim patterns text ctx).matchedPatterns →
      p.active = true ∧ cfg.blockingThreshold ≤ effectiveScore sim text ctx p ∧ p ∈ patterns) ∧
    ((checkBlocking cfg sim patterns text ctx).blocked = true ↔
      ∃ p, p ∈ (checkBlocking cfg sim patterns text ctx).matchedPatterns ∧
        p.severity = FailureSeverity.hard) ∧
    List.Sorted occGe (checkBlocking cfg sim patterns text ctx).matchedPatterns ∧
    ((checkBlocking cfg sim patterns text ctx).matchedPatterns = [] →
      (checkBlocking cfg sim patterns text ctx).severity = none ∧
      (checkBlocking cfg sim patterns text ctx).blocked = false) ∧
    ((∃ p, p ∈ (checkBlocking cfg sim patterns text ctx).matchedPatterns ∧
        p.severity = FailureSeverity.hard) →
      (checkBlocking cfg sim patterns text ctx).severity = some FailureSeverity.hard) ∧
    ((checkBlocking cfg sim patterns text ctx).matchedPatterns ≠ [] →
      (∀ p, p ∈ (checkBlocking cfg sim patterns text ctx).matchedPatterns →
        p.severity = FailureSeverity.soft) →
      (checkBlocking cfg sim patterns text ctx).severity = some FailureSeverity.soft) := by
  rcases checkBlocking_cases cfg sim patterns text ctx with ⟨hres, hM⟩ | ⟨M, hMdef, hMne, hres⟩
  · rw [hres, hM]
    refine ⟨List.Perm.refl _, ?_, ?_, ?_, ?_, ?_, ?_⟩
    · intro p hp
      simp at hp
    · simp
    · simp
    · intro _
      exact ⟨rfl, rfl⟩
    · rintro ⟨p, hp, _⟩
      simp at hp
    · intro hne _
      exact absurd rfl hne
  · have hperm : List.Perm (List.insertionSort occGe M) M := List.perm_insertionSort occGe M
    have hmem : ∀ p, p ∈ List.insertionSort occGe M ↔ p ∈ M := fun p => hperm.mem_iff
    have hMprops : ∀ p, p ∈ M →
        p.active = true ∧ cfg.blockingThreshold ≤ effectiveScore sim text ctx p ∧ p ∈ patterns := by
      intro p hp
      rw [hMdef] at hp
      have h1 := List.mem_filter.mp hp
      have h2 := List.mem_filter.mp h1.1
      refine ⟨h2.2, by simpa using h1.2, h2.1⟩
    have hany : (M.any (fun p => p.severity == FailureSeverity.hard) = true) ↔
        ∃ p, p ∈ M ∧ p.severity = FailureSeverity.hard := by
      rw [List.any_eq_true]
      constructor
      · rintro ⟨p, hp, hsev⟩
        exact ⟨p, hp, by simpa using hsev⟩
      · rintro ⟨p, hp, hsev⟩
        exact ⟨p, hp, by simpa using hsev⟩
    rw [hres]
    refine ⟨?_, ?_, ?_, ?_, ?_, ?_, ?_⟩
    · rw [← hMdef]
      exact hperm
    · intro p hp
      exact hMprops p ((hmem p).mp hp)
    · simp only
      rw [hany]
      constructor
      · rintro ⟨p, hp, hsev⟩
        exact ⟨p, (hmem p).mpr hp, hsev⟩
      · rintro ⟨p, hp, hsev⟩
        exact ⟨p, (hmem p).mp hp, hsev⟩
    · exact List.sorted_insertionSort occGe M
    · intro hnil
      simp only at hnil
      rw [hnil] at hperm
      exact absurd hperm.symm.eq_nil hMne
    · rintro ⟨p, hp, hsev⟩
      have : M.any (fun p => p.severity == FailureSeverity.hard) = true :=
        hany.mpr ⟨p, (hmem p).mp hp, hsev⟩
      simp [this]
    · intro _ hall
      have : M.any (fun p => p.severity == FailureSeverity.hard) = false := by
        rw [Bool.eq_false_iff]
        intro hcontra
        obtain ⟨p, hp, hsev⟩ := hany.mp hcontra
        have := hall p ((hmem p).mpr hp)
        rw [this] at hsev
        cases hsev
      simp [this]

/-- C4 witness: the specification applied to the concrete hard pattern
fixture shows that checking a matching text comes back blocked. -/
theorem c4_checkBlocking_witness :
    (checkBlocking DEFAULT_FAILURE_CONFIG simConst [pHard] "q" none).blocked = true := by
  have h := (c4_checkBlocking_spec DEFAULT_FAILURE_CONFIG simConst [pHard] "q" none).2.2.1
  refine h.mpr ⟨pHard, ?_, rfl⟩
  decide

/-- A blocked checkBlocking result always matches at least one hard
pattern: the hard filter of the matched list is non-empty. -/
theorem checkBlocking_blocked_hard_ne_nil (cfg : FailureMemoryConfig) (sim : SimilarityProvider)
    (patterns : List FailurePattern) (text : String) (ctx : Option String)
    (hb : (checkBlocking cfg sim patterns text ctx).blocked = true) :
    (checkBlocking cfg sim patterns text ctx).matchedPatterns.filter
      (fun p => p.severity == FailureSeverity.hard) ≠ [] := by
  rcases checkBlocking_cases cfg sim patterns text ctx with ⟨hres, _⟩ | ⟨M, _, _, hres⟩
  · rw [hres] at hb
    simp at hb
  · rw [hres] at hb ⊢
    simp only at hb ⊢
    obtain ⟨p, hp, hsev⟩ := List.any_eq_true.mp hb
    have hpmem : p ∈ List.insertionSort occGe M :=
      (List.perm_insertionSort occGe M).mem_iff.mpr hp
    exact List.ne_nil_of_mem (List.mem_filter.mpr ⟨hpmem, hsev⟩)

/-! ## Shape of prepareContext results -/

/-- prepareContext takes exactly one of three exits: the identity-not-found
error, the early blocked return (with zero retrievals), or the full pipeline
success (with three retrievals and the blocking result embedded in the
returned context). -/
theorem prepareContext_cases (sim : SimilarityProvider) (fcfg : FailureMemoryConfig)
    (ecfg : CortexEngineConfig) (st : EngineState) (now : Int) (input : PrepareContextInput) :
    (st.identities input.identityId = none ∧
      prepareContext sim fcfg ecfg st now input =
        (PrepareContextResult.error ("Identity not found: " ++ input.identityId), 0)) ∨
    (∃ identity, st.identities input.identityId = some identity ∧
      (((!(input.failureOptions.bind (fun o => o.skipCheck)).getD false &&
            (checkBlocking fcfg sim st.patterns input.query input.context).blocked) = true ∧
        prepareContext sim fcfg ecfg st now input =
          (PrepareContextResult.blocked
            (match (checkBlocking fcfg sim st.patterns input.query input.context).matchedPatterns.head? with
             | some p => p.reason
             | none => "Matched hard-block failure pattern")
            (checkBlocking fcfg sim st.patterns input.query input.context).matchedPatterns, 0)) ∨
      ((!(input.failureOptions.bind (fun o => o.skipCheck)).getD false &&
            (checkBlocking fcfg sim st.patterns input.query input.context).blocked) = false ∧
        ∃ ctx, prepareContext sim fcfg ecfg st now input =
            (PrepareContextResult.success ctx, 3) ∧
          ctx.identity = identity ∧
          ctx.preparedAt = now ∧
          ctx.rawBlockingResult = checkBlocking fcfg sim st.patterns input.query input.context ∧
          ctx.failureContext =
            buildFailureContext (checkBlocking fcfg sim st.patterns input.query input.context)))) := by
  cases hid : st.identities input.identityId with
  | none =>
    left
    refine ⟨rfl, ?_⟩
    unfold prepareContext
    rw [hid]
  | some identity =>
    right
    refine ⟨identity, rfl, ?_⟩
    cases hcond : (!(input.failureOptions.bind (fun o => o.skipCheck)).getD false &&
        (checkBlocking fcfg sim st.patterns input.query input.context).blocked) with
    | true =>
      left
      refine ⟨rfl, ?_⟩
      unfold prepareContext
      rw [hid]
      dsimp only
      rw [if_pos hcond]
    | false =>
      right
      refine ⟨rfl, ?_⟩
      unfold prepareContext
      rw [hid]
      dsimp only
      rw [if_neg (by rw [hcond]; exact Bool.false_ne_true)]
      exact ⟨_, rfl, rfl, rfl, rfl, rfl⟩

/-! ## C1: reason carried by a blocked prepareContext result -/

/-- C1 counterexample: with an active soft pattern of occurrence count 5 and
an active hard pattern of occurrence count 1 that both match, prepareContext
returns blocked with reason "soft-reason" — the reason of the soft pattern
that sorts first by occurrence count — while the first (and only)
hard-blocking matched pattern carries reason "hard-reason", contradicting the
claim that the blocked reason is the first hard-blocking pattern's reason. -/
theorem c1_blocked_reason_counterexample :
    (prepareContext simConst DEFAULT_FAILURE_CONFIG DEFAULT_ENGINE_CONFIG engineSt1 0 input1).1 =
      PrepareContextResult.blocked "soft-reason" [pSoft, pHard] ∧
    pSoft.severity = FailureSeverity.soft ∧
    pHard.severity = FailureSeverity.hard ∧
    pHard.reason = "hard-reason" ∧
    "soft-reason" ≠ "hard-reason" := by
  refine ⟨rfl, rfl, rfl, rfl, ?_⟩
  decide

/-- C1 amended: whenever prepareContext returns a blocked result, the matched
list is the (occurrence-count-descending) matched list of checkBlocking, it
is non-empty, and the reason is the reason of its first pattern — which may
be a soft pattern when a soft match outranks every hard match by occurrence
count; the generic fallback reason is unreachable because a blocked result
always carries a non-empty matched list whose patterns all carry a reason. -/
theorem c1_blocked_reason_amended (sim : SimilarityProvider) (fcfg : FailureMemoryConfig)
    (ecfg : CortexEngineConfig) (st : EngineState) (now : Int) (input : PrepareContextInput)
    (r : String) (ms : List FailurePattern)
    (h : (prepareContext sim fcfg ecfg st now input).1 = PrepareContextResult.blocked r ms) :
    ms = (checkBlocking fcfg sim st.patterns input.query input.context).matchedPatterns ∧
    ∃ p rest, ms = p :: rest ∧ r = p.reason := by
  rcases prepareContext_cases sim fcfg ecfg st now input with
    ⟨_, heq⟩ | ⟨identity, hid, ⟨hcond, heq⟩ | ⟨hcond, ctx, heq, _⟩⟩
  · rw [heq] at h
    simp at h
  · rw [heq] at h
    simp only at h
    have hblocked : (checkBlocking fcfg sim st.patterns input.query input.context).blocked = true := by
      have hand := hcond
      rw [Bool.and_eq_true] at hand
      exact hand.2
    obtain ⟨p, rest, hcons⟩ := List.exists_cons_of_ne_nil
      (checkBlocking_blocked_ne_nil fcfg sim st.patterns input.query input.context hblocked)
    rw [hcons] at h
    simp only [List.head?] at h
    have h1 : p.reason = r := (PrepareContextResult.blocked.injEq _ _ _ _).mp h |>.1
    have h2 : p :: rest = ms := (PrepareContextResult.blocked.injEq _ _ _ _).mp h |>.2
    refine ⟨?_, p, rest, h2.symm, h1.symm⟩
    rw [← h2, hcons]
  · rw [heq] at h
    simp at h

/-- C1 witness: the amended statement applied to the concrete blocked run of
the counterexample fixture. -/
theorem c1_blocked_reason_witness :
    [pSoft, pHard] =
      (checkBlocking DEFAULT_FAILURE_CONFIG simConst engineSt1.patterns
        input1.query input1.context).matchedPatterns ∧
    ∃ p rest, [pSoft, pHard] = p :: rest ∧ "soft-reason" = p.reason :=
  c1_blocked_reason_amended simConst DEFAULT_FAILURE_CONFIG DEFAULT_ENGINE_CONFIG
    engineSt1 0 input1 "soft-reason" [pSoft, pHard] rfl

/-! ## C3: hard blocks short-circuit the pipeline -/

/-- C3: when the caller does not request skipping the failure check and
checkBlocking reports blocked, prepareContext (with the identity present)
returns the blocked result carrying exactly the matched patterns and a
reason, and executes zero memory retrievals — the second component of the
embedded pipeline counts the retrieve calls performed, and the blocked
result shape carries no memory content at all. -/
theorem c3_short_circuit (sim : SimilarityProvider) (fcfg : FailureMemoryConfig)
    (ecfg : CortexEngineConfig) (st : EngineState) (now : Int) (input : PrepareContextInput)
    (ident : Identity)
    (hid : st.identities input.identityId = some ident)
    (hskip : (input.failureOptions.bind (fun o => o.skipCheck)).getD false = false)
    (hblocked : (checkBlocking fcfg sim st.patterns input.query input.context).blocked = true) :
    ∃ r, prepareContext sim fcfg ecfg st now input =
      (PrepareContextResult.blocked r
        (checkBlocking fcfg sim st.patterns input.query input.context).matchedPatterns, 0) := by
  rcases prepareContext_cases sim fcfg ecfg st now input with
    ⟨hnone, _⟩ | ⟨identity, _, ⟨_, heq⟩ | ⟨hcond, _⟩⟩
  · rw [hnone] at hid
    cases hid
  · exact ⟨_, heq⟩
  · rw [hskip, hblocked] at hcond
    simp at hcond

/-- C3 witness: the short-circuit applied to the concrete fixture with a
matching hard pattern and no skip request. -/
theorem c3_short_circuit_witness :
    ∃ r, prepareContext simConst DEFAULT_FAILURE_CONFIG DEFAULT_ENGINE_CONFIG engineSt1 0 input1 =
      (PrepareContextResult.blocked r
        (checkBlocking DEFAULT_FAILURE_CONFIG simConst engineSt1.patterns
          input1.query input1.context).matchedPatterns, 0) :=
  c3_short_circuit simConst DEFAULT_FAILURE_CONFIG DEFAULT_ENGINE_CONFIG engineSt1 0 input1
    ident1 rfl rfl rfl

/-! ## C9: skipCheck never yields the blocked shape -/

/-- C9: when the caller sets failureOptions.skipCheck to true, prepareContext
never returns the blocked result shape; when the identity is present it
proceeds to memory retrieval (three retrievals execute) and returns a
success result whose failureContext still exposes the blocking outcome: the
blocked flag, the hard and soft block lists projected from the matched
patterns, and, when blocked, a blockReason equal to the first hard block's
reason; the raw blocking result is embedded unmodified. -/
theorem c9_skipCheck_spec (sim : SimilarityProvider) (fcfg : FailureMemoryConfig)
    (ecfg : CortexEngineConfig) (st : EngineState) (now : Int) (input : PrepareContextInput)
    (hskip : (input.failureOptions.bind (fun o => o.skipCheck)).getD false = true) :
    (∀ r ms, (prepareContext sim fcfg ecfg st now input).1 ≠
      PrepareContextResult.blocked r ms) ∧
    (∀ ident, st.identities input.identityId = some ident →
      ∃ ctx, prepareContext sim fcfg ecfg st now input = (PrepareContextResult.success ctx, 3) ∧
        ctx.rawBlockingResult = checkBlocking fcfg sim st.patterns input.query input.context ∧
        ctx.failureContext =
          buildFailureContext (checkBlocking fcfg sim st.patterns input.query input.context) ∧
        ctx.failureContext.blocked =
          (checkBlocking fcfg sim st.patterns input.query input.context).blocked ∧
        ctx.failureContext.hardBlocks =
          ((checkBlocking fcfg sim st.patterns input.query input.context).matchedPatterns.filter
            (fun p => p.severity == FailureSeverity.hard)).map
            (fun p => BlockEntry.mk p.pattern p.reason p.occurrenceCount) ∧
        ctx.failureContext.softBlocks =
          ((checkBlocking fcfg sim st.patterns input.query input.context).matchedPatterns.filter
            (fun p => p.severity == FailureSeverity.soft)).map
            (fun p => BlockEntry.mk p.pattern p.reason p.occurrenceCount) ∧
        ((checkBlocking fcfg sim st.patterns input.query input.context).blocked = true →
          ∃ b rest, ctx.failureContext.hardBlocks = b :: rest ∧
            ctx.failureContext.blockReason = some b.reason)) := by
  have hcond : (!(input.failureOptions.bind (fun o => o.skipCheck)).getD false &&
      (checkBlocking fcfg sim st.patterns input.query input.context).blocked) = false := by
    rw [hskip]
    simp
  constructor
  · intro r ms
    rcases prepareContext_cases sim fcfg ecfg st now input with
      ⟨_, heq⟩ | ⟨identity, _, ⟨hcond2, _⟩ | ⟨_, ctx, heq, _⟩⟩
    · rw [heq]
      simp
    · rw [hcond] at hcond2
      cases hcond2
    · rw [heq]
      simp
  · intro ident hident
    rcases prepareContext_cases sim fcfg ecfg st now input with
      ⟨hnone, _⟩ | ⟨identity, _, ⟨hcond2, _⟩ | ⟨_, ctx, heq, _, _, hraw, hfail⟩⟩
    · rw [hnone] at hident
      cases hident
    · rw [hcond] at hcond2
      cases hcond2
    · refine ⟨ctx, heq, hraw, hfail, ?_, ?_, ?_, ?_⟩
      · rw [hfail]
        rfl
      · rw [hfail]
        rfl
      · rw [hfail]
        rfl
      · intro hb
        obtain ⟨q, qs, hq⟩ := List.exists_cons_of_ne_nil
          (checkBlocking_blocked_hard_ne_nil fcfg sim st.patterns input.query input.context hb)
        refine ⟨BlockEntry.mk q.pattern q.reason q.occurrenceCount,
          ((qs).map (fun p => BlockEntry.mk p.pattern p.reason p.occurrenceCount)), ?_, ?_⟩
        · rw [hfail]
          show ((checkBlocking fcfg sim st.patterns input.query input.context).matchedPatterns.filter
            (fun p => p.severity == FailureSeverity.hard)).map
            (fun p => BlockEntry.mk p.pattern p.reason p.occurrenceCount) = _
          rw [hq]
          rfl
        · rw [hfail]
          show (if (checkBlocking fcfg sim st.patterns input.query input.context).blocked = true
            then (((checkBlocking fcfg sim st.patterns input.query input.context).matchedPatterns.filter
              (fun p => p.severity == FailureSeverity.hard)).map
              (fun p => BlockEntry.mk p.pattern p.reason p.occurrenceCount)).head?.map
                (fun b => b.reason)
            else none) = some q.reason
          rw [if_pos hb, hq]
          rfl

/-- C9 witness: the skip-check run on the concrete fixture whose hard pattern
matches — blocking is detected yet the pipeline returns success and exposes
the block inside the success context. -/
theorem c9_skipCheck_witness :
    (∀ r ms, (prepareContext simConst DEFAULT_FAILURE_CONFIG DEFAULT_ENGINE_CONFIG
      engineSt1 0 input9).1 ≠ PrepareContextResult.blocked r ms) ∧
    ∃ ctx, prepareContext simConst DEFAULT_FAILURE_CONFIG DEFAULT_ENGINE_CONFIG
        engineSt1 0 input9 = (PrepareContextResult.success ctx, 3) ∧
      ctx.rawBlockingResult = checkBlocking DEFAULT_FAILURE_CONFIG simConst
        engineSt1.patterns input9.query input9.context ∧
      ctx.failureContext = buildFailureContext (checkBlocking DEFAULT_FAILURE_CONFIG simConst
        engineSt1.patterns input9.query input9.context) := by
  have h := c9_skipCheck_spec simConst DEFAULT_FAILURE_CONFIG DEFAULT_ENGINE_CONFIG
    engineSt1 0 input9 rfl
  obtain ⟨ctx, heq, hraw, hfail, _⟩ := h.2 ident1 rfl
  exact ⟨h.1, ctx, heq, hraw, hfail⟩

/-! ## Store lemmas for the list-backed memory map -/

/-- find? over a filter returns nothing when the filter drops every element
the search predicate accepts. -/
theorem find?_filter_none {α : Type} (p q : α → Bool) (l : List α)
    (h : ∀ x, p x = true → q x = false) : (l.filter q).find? p = none := by
  induction l with
  | nil => rfl
  | cons x xs ih =>
    rw [List.filter_cons]
    by_cases hq : q x = true
    · rw [if_pos hq]
      have hp : ¬ (p x = true) := fun hp => by rw [h x hp] at hq; exact Bool.false_ne_true hq
      rw [List.find?_cons_of_neg _ hp]
      exact ih
    · rw [if_neg hq]
      exact ih

/-- find? commutes with a filter that keeps every element the search
predicate accepts. -/
theorem find?_filter_keep {α : Type} (p q : α → Bool) (l : List α)
    (h : ∀ x, p x = true → q x = true) : (l.filter q).find? p = l.find? p := by
  induction l with
  | nil => rfl
  | cons x xs ih =>
    rw [List.filter_cons]
    by_cases hp : p x = true
    · rw [if_pos (h x hp), List.find?_cons_of_pos _ hp, List.find?_cons_of_pos _ hp]
    · by_cases hq : q x = true
      · rw [if_pos hq, List.find?_cons_of_neg _ hp, List.find?_cons_of_neg _ hp]
        exact ih
      · rw [if_neg hq, List.find?_cons_of_neg _ hp]
        exact ih

/-- After deleting an id from the memory store, loading that id is absent. -/
theorem loadMem_deleteMem_self (store : List DistilledMemory) (id : String) :
    loadMem (deleteMem store id) id = none := by
  apply find?_filter_none
  intro x hx
  rw [hx]
  rfl

/-- Deleting one id leaves lookups of a different id unaffected. -/
theorem loadMem_deleteMem_other (store : List DistilledMemory) (id k : String)
    (hne : k ≠ id) : loadMem (deleteMem store id) k = loadMem store k := by
  apply find?_filter_keep
  intro x hx
  have hxk : x.id = k := by simpa using hx
  simp [hxk, hne]

/-- After saving a memory, loading its id yields exactly that memory. -/
theorem loadMem_saveMem_self (store : List DistilledMemory) (m : DistilledMemory) :
    loadMem (saveMem store m) m.id = some m := by
  unfold saveMem loadMem
  by_cases hany : store.any (fun x => x.id == m.id) = true
  · rw [if_pos hany]
    induction store with
    | nil => simp at hany
    | cons x xs ih =>
      rw [List.map_cons]
      by_cases hx : (x.id == m.id) = true
      · have : (if x.id == m.id then m else x) = m := if_pos hx
        rw [this, List.find?_cons_of_pos]
        simp
      · have hx' : (x.id == m.id) = false := Bool.eq_false_iff.mpr hx
        have : (if x.id == m.id then m else x) = x := if_neg hx
        rw [this]
        simp only [List.find?_cons, hx']
        apply ih
        simpa [List.any_cons, hx] using hany
  · rw [if_neg hany]
    have hnone : store.find? (fun x => x.id == m.id) = none := by
      rw [List.find?_eq_none]
      intro x hx
      intro hpx
      exact hany (List.any_eq_true.mpr ⟨x, hx, hpx⟩)
    induction store with
    | nil => simp
    | cons x xs ih =>
      have hpx : ¬ ((x.id == m.id) = true) := by
        intro hpx
        exact hany (List.any_eq_true.mpr ⟨x, List.mem_cons_self x xs, hpx⟩)
      have hpx' : (x.id == m.id) = false := Bool.eq_false_iff.mpr hpx
      rw [List.cons_append]
      simp only [List.find?_cons, hpx']
      apply ih
      · intro hanyxs
        exact hany (by simp [List.any_cons, hanyxs])
      · rw [List.find?_eq_none] at hnone ⊢
        intro y hy
        exact hnone y (List.mem_cons_of_mem x hy)

/-- A successful memory-store lookup returns a record carrying the looked-up
id. -/
theorem loadMem_id (store : List DistilledMemory) (id : String) (m : DistilledMemory)
    (h : loadMem store id = some m) : m.id = id := by
  have := List.find?_some h
  simpa using this

/-! ## C7: merge round trip -/

/-- C7 counterexample: merging a memory with itself succeeds, yet afterwards
loading the kept id (which is also the removed id) returns absent — the
record is saved and then deleted by the same call, so no surviving record
keeps the id and content of keep, contradicting the claim read over all
successful merges. -/
theorem c7_merge_counterexample :
    (merge DEFAULT_SERVICE_CONFIG simConst 0 [m7] "m7" "m7").map
      (fun r => loadMem r.2 "m7") = Except.ok none := rfl

/-- C7 amended: for distinct ids, after a successful merge the removed id
loads as absent, the kept id loads as the merged record, and the merged
record keeps the id and content of keep, has confidence
min(maxConfidence, max of the two confidences + reinforcementBoost),
reinforcementCount equal to the sum of both plus one, createdAt equal to the
earlier of the two, and tags equal to the sorted union of both tag lists;
merge fails with a not-found error when either id is absent (the first
missing id is reported), leaving the store untouched. -/
theorem c7_merge_spec (cfg : MemoryServiceConfig) (sim : SimilarityProvider) (now : Int)
    (store : List DistilledMemory) (keepId removeId : String) :
    (∀ keep remove, loadMem store keepId = some keep →
      loadMem store removeId = some remove → keepId ≠ removeId →
      ∃ res store2, merge cfg sim now store keepId removeId = Except.ok (res, store2) ∧
        loadMem store2 removeId = none ∧
        loadMem store2 keepId = some res.merged ∧
        res.merged.id = keep.id ∧
        res.merged.content = keep.content ∧
        res.merged.confidence =
          min cfg.maxConfidence (max keep.confidence remove.confidence + cfg.reinforcementBoost) ∧
        res.merged.reinforcementCount = keep.reinforcementCount + remove.reinforcementCount + 1 ∧
        res.merged.createdAt = min keep.createdAt remove.createdAt ∧
        List.Sorted (fun a b : String => a ≤ b) res.merged.tags ∧
        (∀ t, t ∈ res.merged.tags ↔ t ∈ keep.tags ∨ t ∈ remove.tags)) ∧
    (loadMem store keepId = none →
      merge cfg sim now store keepId removeId =
        Except.error ("Memory not found: " ++ keepId)) ∧
    (∀ keep, loadMem store keepId = some keep → loadMem store removeId = none →
      merge cfg sim now store keepId removeId =
        Except.error ("Memory not found: " ++ removeId)) := by
  refine ⟨?_, ?_, ?_⟩
  · intro keep remove hk hr hne
    have hkid : keep.id = keepId := loadMem_id store keepId keep hk
    unfold merge
    rw [hk, hr]
    refine ⟨_, _, rfl, ?_, ?_, rfl, rfl, rfl, rfl, ?_, ?_, ?_⟩
    · exact loadMem_deleteMem_self _ removeId
    · rw [loadMem_deleteMem_other _ removeId keepId hne, ← hkid]
      exact loadMem_saveMem_self store _
    · show (if keep.createdAt < remove.createdAt then keep.createdAt else remove.createdAt) =
        min keep.createdAt remove.createdAt
      rw [min_def]
      split_ifs with h1 h2 h3 <;> omega
    · exact List.sorted_insertionSort _ _
    · intro t
      rw [(List.perm_insertionSort _ _).mem_iff, List.mem_dedup, List.mem_append]
  · intro hk
    unfold merge
    rw [hk]
  · intro keep hk hr
    unfold merge
    rw [hk, hr]

/-- C7 witness: the success branch applied to the concrete records k7 and r7
and the failure branch applied to a missing keep id. -/
theorem c7_merge_witness :
    (∃ res store2, merge DEFAULT_SERVICE_CONFIG simConst 7 [k7, r7] "k7" "r7" =
        Except.ok (res, store2) ∧
      loadMem store2 "r7" = none ∧
      loadMem store2 "k7" = some res.merged ∧
      res.merged.reinforcementCount = k7.reinforcementCount + r7.reinforcementCount + 1 ∧
      (∀ t, t ∈ res.merged.tags ↔ t ∈ k7.tags ∨ t ∈ r7.tags)) ∧
    merge DEFAULT_SERVICE_CONFIG simConst 7 [k7, r7] "zz" "r7" =
      Except.error ("Memory not found: " ++ "zz") := by
  have h := c7_merge_spec DEFAULT_SERVICE_CONFIG simConst 7 [k7, r7] "k7" "r7"
  obtain ⟨res, store2, hok, hnone, hload, _, _, _, hcount, _, _, hmem⟩ :=
    h.1 k7 r7 rfl rfl (by decide)
  have h2 := c7_merge_spec DEFAULT_SERVICE_CONFIG simConst 7 [k7, r7] "zz" "r7"
  exact ⟨⟨res, store2, hok, hnone, hload, hcount, hmem⟩, h2.2.1 rfl⟩

/-! ## Identity service lemmas -/

/-- Shape of a successful create: version 1, the record stored under its id,
and exactly one "initial" snapshot appended to the version table. -/
theorem create_ok (uuid : Nat → String) (now : Int) (st : IdentityStore)
    (input : CreateIdentityInput) (ident : Identity) (st1 : IdentityStore)
    (h : create uuid now st input = Except.ok (ident, st1)) :
    ident.version = 1 ∧
    st1.identities ident.id = some ident ∧
    getVersionHistory st1 ident.id =
      getVersionHistory st ident.id ++
        [{ identityId := ident.id, version := 1, snapshot := ident
         , createdAt := now, changeReason := "initial" }] := by
  unfold create at h
  dsimp only at h
  split at h
  · simp at h
  · split at h
    · simp at h
    · rw [Except.ok.injEq, Prod.mk.injEq] at h
      obtain ⟨h1, h2⟩ := h
      subst h1
      subst h2
      refine ⟨rfl, ?_, ?_⟩
      · simp
      · simp [getVersionHistory, List.filter_append]

/-- Shape of a successful update: the existing record is loaded, the version
is bumped by one, the bumped record is stored, and exactly one snapshot with
the caller-supplied change reason is appended to the version table. -/
theorem update_ok (uuid : Nat → String) (now : Int) (st : IdentityStore) (id : String)
    (input : UpdateIdentityInput) (ident : Identity) (st1 : IdentityStore)
    (h : update uuid now st id input = Except.ok (ident, st1)) :
    ∃ existing, st.identities id = some existing ∧
      ident.version = existing.version + 1 ∧
      st1.identities id = some ident ∧
      getVersionHistory st1 id = getVersionHistory st id ++
        [{ identityId := id, version := ident.version, snapshot := ident
         , createdAt := now, changeReason := input.changeReason }] := by
  unfold update at h
  dsimp only at h
  split at h
  · simp at h
  · split at h
    · simp at h
    · rename_i existing heq
      split at h
      · simp at h
      · rw [Except.ok.injEq, Prod.mk.injEq] at h
        obtain ⟨h1, h2⟩ := h
        subst h1
        subst h2
        refine ⟨existing, heq, rfl, ?_, ?_⟩
        · simp
        · simp [getVersionHistory, List.filter_append]

/-- A chain of successful updates bumps the version once per update and
appends exactly one snapshot per update. -/
theorem applyUpdates_ok (uuid : Nat → String) (now : Int) (id : String) :
    ∀ (inputs : List UpdateIdentityInput) (st st2 : IdentityStore) (ident : Identity),
      applyUpdates uuid now id inputs st = Except.ok st2 →
      st.identities id = some ident →
      ∃ fin, st2.identities id = some fin ∧
        fin.version = ident.version + inputs.length ∧
        (getVersionHistory st2 id).length = (getVersionHistory st id).length + inputs.length := by
  intro inputs
  induction inputs with
  | nil =>
    intro st st2 ident h hid
    unfold applyUpdates at h
    obtain rfl : st = st2 := by simpa using h
    exact ⟨ident, hid, by simp, by simp⟩
  | cons i rest ih =>
    intro st st2 ident h hid
    unfold applyUpdates at h
    split at h
    · simp at h
    · rename_i a st1 heq
      obtain ⟨existing, hex, hver, hload1, hhist1⟩ := update_ok uuid now st id i a st1 heq
      have hei : ident = existing := Option.some.inj (hid.symm.trans hex)
      subst hei
      obtain ⟨fin, hfin, hfv, hfh⟩ := ih st1 st2 a h hload1
      refine ⟨fin, hfin, ?_, ?_⟩
      · simp only [List.length_cons]
        omega
      · rw [hhist1] at hfh
        simp only [List.length_append, List.length_cons, List.length_nil] at hfh ⊢
        omega

/-! ## C8: identity versioning -/

/-- C8: every successful create yields version 1 and appends exactly one
snapshot with change reason "initial" (the whole history when the identity id
is fresh); every successful update yields version previous + 1 and appends
exactly one snapshot with the caller-supplied change reason; hence after one
create of a fresh id and n successful updates, the version history holds
n + 1 snapshots and the live record carries version n + 1. -/
theorem c8_identity_versioning (uuid : Nat → String) (now : Int) (st : IdentityStore)
    (input : CreateIdentityInput) :
    (∀ ident st1, create uuid now st input = Except.ok (ident, st1) →
      ident.version = 1 ∧
      getVersionHistory st1 ident.id = getVersionHistory st ident.id ++
        [{ identityId := ident.id, version := 1, snapshot := ident
         , createdAt := now, changeReason := "initial" }] ∧
      (getVersionHistory st ident.id = [] →
        getVersionHistory st1 ident.id =
          [{ identityId := ident.id, version := 1, snapshot := ident
           , createdAt := now, changeReason := "initial" }])) ∧
    (∀ id uinput ident st1, update uuid now st id uinput = Except.ok (ident, st1) →
      ∃ existing, st.identities id = some existing ∧
        ident.version = existing.version + 1 ∧
        getVersionHistory st1 id = getVersionHistory st id ++
          [{ identityId := id, version := ident.version, snapshot := ident
           , createdAt := now, changeReason := uinput.changeReason }]) ∧
    (∀ ident st1 inputs st2, create uuid now st input = Except.ok (ident, st1) →
      getVersionHistory st ident.id = [] →
      applyUpdates uuid now ident.id inputs st1 = Except.ok st2 →
      (getVersionHistory st2 ident.id).length = inputs.length + 1 ∧
      ∃ fin, st2.identities ident.id = some fin ∧ fin.version = inputs.length + 1) := by
  refine ⟨?_, ?_, ?_⟩
  · intro ident st1 h
    obtain ⟨hv, _, hhist⟩ := create_ok uuid now st input ident st1 h
    refine ⟨hv, hhist, fun hfresh => ?_⟩
    rw [hhist, hfresh]
    rfl
  · intro id uinput ident st1 h
    obtain ⟨existing, hex, hver, _, hhist⟩ := update_ok uuid now st id uinput ident st1 h
    exact ⟨existing, hex, hver, hhist⟩
  · intro ident st1 inputs st2 hc hfresh hupd
    obtain ⟨hv, hload, hhist⟩ := create_ok uuid now st input ident st1 hc
    obtain ⟨fin, hfin, hfv, hfh⟩ :=
      applyUpdates_ok uuid now ident.id inputs st1 st2 ident hupd hload
    constructor
    · rw [hhist, hfresh] at hfh
      simp only [List.nil_append, List.length_cons, List.length_nil] at hfh
      omega
    · exact ⟨fin, hfin, by omega⟩

/-- C8 witness: one concrete create of a fresh identity followed by one
successful update, via the versioning theorem. -/
theorem c8_identity_witness :
    create uuidW 0 stEmpty inpW = Except.ok (identW, st1W) ∧
    identW.version = 1 ∧
    getVersionHistory st1W identW.id =
      [{ identityId := identW.id, version := 1, snapshot := identW
       , createdAt := 0, changeReason := "initial" }] ∧
    applyUpdates uuidW 0 identW.id [updW] st1W = Except.ok st2W ∧
    (getVersionHistory st2W identW.id).length = 1 + 1 ∧
    ∃ fin, st2W.identities identW.id = some fin ∧ fin.version = 1 + 1 := by
  have h := c8_identity_versioning uuidW 0 stEmpty inpW
  have hcreate : create uuidW 0 stEmpty inpW = Except.ok (identW, st1W) := rfl
  have hupd : applyUpdates uuidW 0 identW.id [updW] st1W = Except.ok st2W := rfl
  have hfresh : getVersionHistory stEmpty identW.id = [] := rfl
  obtain ⟨hv, _, hsingle⟩ := h.1 identW st1W hcreate
  obtain ⟨hlen, hfin⟩ := h.2.2 identW st1W [updW] st2W hcreate hfresh hupd
  exact ⟨hcreate, hv, hsingle hfresh, hupd, hlen, hfin⟩

/-- C10 witness: merging the concrete records k7 and r7 at time 7. -/
theorem c10_merge_frame_witness :
    ∃ res store2, merge DEFAULT_SERVICE_CONFIG simConst 7 [k7, r7] "k7" "r7" =
        Except.ok (res, store2) ∧
      res.merged.decayFactor = k7.decayFactor ∧
      res.merged.lastDecayAt = k7.lastDecayAt ∧
      res.merged.type = k7.type ∧
      res.merged.sourceContext = k7.sourceContext ∧
      res.merged.id = k7.id ∧
      res.merged.content = k7.content ∧
      res.merged.lastReinforcedAt = 7 :=
  c10_merge_frame DEFAULT_SERVICE_CONFIG simConst 7 [k7, r7] "k7" "r7" k7 r7 rfl rfl

end Cortex
